import Mathlib

/-!
Verification development for a fragment of a distributed NoSQL database
engine.  Each section embeds one source component as executable Lean
definitions and proves (or refutes) the specified properties about it.

Components covered:
* `service::group0_voter_registry` (voter cap, insert/remove behavior);
* `aws::instance_profile_credentials_provider` (refresh decision);
* `alternator` consumed-capacity accounting (RCU/WCU rounding, response
  gating on the `ReturnConsumedCapacity` field);
* `aws::retryable_http_client::do_retryable_request` (retry loop);
* `cql3::selection::result_set_builder` (aggregate identity row);
* `delegating_reader_v2` (ownership and close);
* `cql3::selection` column lookups (`index_of` / `has_column`).
-/

/-! ## Group0 voter registry

Embedding of `service::group0_voter_registry` (group0_voter_registry.cc /
.hh) together with the mock `raft_voter_client` used by its unit tests,
which maintains the authoritative voter set: `set_voters_status(S, yes)`
inserts every node of `S`, `set_voters_status(S, no)` erases every node
of `S`.  Raft server ids are modelled as naturals; the iteration order of
the C++ `unordered_set` argument is made explicit by taking the nodes as
a duplicate-free list. -/

abbrev ServerId := Nat

/-- The selection loop of `group0_voter_registry::insert_nodes`: walk the
input nodes, breaking out as soon as the set of newly collected voters has
reached `_max_voters`; otherwise insert the node into `new_voters`. -/
def insertNodesNewVoters (maxVoters : Nat) : List ServerId → List ServerId → List ServerId
  | [], newVoters => newVoters
  | node :: rest, newVoters =>
    if maxVoters ≤ newVoters.length then
      newVoters
    else
      insertNodesNewVoters maxVoters rest
        (if node ∈ newVoters then newVoters else newVoters ++ [node])

/-- The test double `raft_voter_client::set_voters_status`: with
`can_vote = yes` it inserts all given nodes into the voter set, with
`can_vote = no` it erases them. -/
def setVotersStatus (voters : List ServerId) (nodes : List ServerId) (canVote : Bool) :
    List ServerId :=
  if canVote then
    nodes.foldl (fun vs n => if n ∈ vs then vs else vs ++ [n]) voters
  else
    voters.filter (fun v => decide (v ∉ nodes))

/-- `group0_voter_registry::insert_nodes`: select at most `_max_voters`
new voters from the input and forward them to the voter client with
status `can_vote = yes`. -/
def registryInsertNodes (maxVoters : Nat) (voters : List ServerId) (nodes : List ServerId) :
    List ServerId :=
  setVotersStatus voters (insertNodesNewVoters maxVoters nodes []) true

/-- `group0_voter_registry::remove_nodes`: forward the given set to the
voter client with status `can_vote = no`, unconditionally. -/
def registryRemoveNodes (voters : List ServerId) (nodes : List ServerId) : List ServerId :=
  setVotersStatus voters nodes false

/-- One call against the registry: `insert_nodes` or `remove_nodes`
(`insert_node` / `remove_node` are the singleton-set special cases). -/
inductive RegistryCall where
  | insert (nodes : List ServerId)
  | remove (nodes : List ServerId)
deriving DecidableEq, Repr

/-- Run a sequence of registry calls against the voter client, starting
from a given voter set. -/
def runRegistryCalls (maxVoters : Nat) (voters : List ServerId) :
    List RegistryCall → List ServerId
  | [] => voters
  | .insert nodes :: rest =>
      runRegistryCalls maxVoters (registryInsertNodes maxVoters voters nodes) rest
  | .remove nodes :: rest =>
      runRegistryCalls maxVoters (registryRemoveNodes voters nodes) rest

/-- All nodes ever forwarded to the voter client with `can_vote = yes`
over a sequence of registry calls (inserts contribute the selected subset,
removals contribute nothing). -/
def forwardedYesNodes (maxVoters : Nat) : List RegistryCall → List ServerId
  | [] => []
  | .insert nodes :: rest =>
      insertNodesNewVoters maxVoters nodes [] ++ forwardedYesNodes maxVoters rest
  | .remove _ :: rest => forwardedYesNodes maxVoters rest

theorem insertNodesNewVoters_length_le (maxVoters : Nat) :
    ∀ (nodes acc : List ServerId), acc.length ≤ maxVoters →
      (insertNodesNewVoters maxVoters nodes acc).length ≤ maxVoters := by
  intro nodes
  induction nodes with
  | nil => intro acc h; simpa [insertNodesNewVoters] using h
  | cons n rest ih =>
      intro acc h
      by_cases hfull : maxVoters ≤ acc.length
      · simpa [insertNodesNewVoters, hfull] using h
      · have hlt : acc.length < maxVoters := Nat.lt_of_not_le hfull
        by_cases hmem : n ∈ acc
        · simpa [insertNodesNewVoters, hfull, hmem] using ih acc h
        · have : (acc ++ [n]).length ≤ maxVoters := by
            simpa [List.length_append] using Nat.succ_le_of_lt hlt
          simpa [insertNodesNewVoters, hfull, hmem] using ih (acc ++ [n]) this

theorem insertNodesNewVoters_fresh_eq (maxVoters : Nat) :
    ∀ (nodes acc : List ServerId), nodes.Nodup → (∀ n ∈ nodes, n ∉ acc) →
      acc.length ≤ maxVoters →
      insertNodesNewVoters maxVoters nodes acc =
        acc ++ nodes.take (maxVoters - acc.length) := by
  intro nodes
  induction nodes with
  | nil => intro acc _ _ _; simp [insertNodesNewVoters]
  | cons n rest ih =>
      intro acc hnd hfresh hle
      by_cases hfull : maxVoters ≤ acc.length
      · have hz : maxVoters - acc.length = 0 := Nat.sub_eq_zero_of_le hfull
        simp [insertNodesNewVoters, hfull, hz]
      · have hlt : acc.length < maxVoters := Nat.lt_of_not_le hfull
        have hmem : n ∉ acc := hfresh n (List.mem_cons_self n rest)
        have hrest : ∀ m ∈ rest, m ∉ acc ++ [n] := by
          intro m hm
          simp only [List.mem_append, List.mem_singleton]
          rintro (hma | rfl)
          · exact hfresh m (List.mem_cons_of_mem n hm) hma
          · exact (List.nodup_cons.mp hnd).1 hm
        have hlen : (acc ++ [n]).length ≤ maxVoters := by
          simpa [List.length_append] using Nat.succ_le_of_lt hlt
        have hrec := ih (acc ++ [n]) (List.nodup_cons.mp hnd).2 hrest hlen
        have hk : ∃ k, maxVoters - acc.length = k + 1 :=
          ⟨maxVoters - acc.length - 1, by omega⟩
        obtain ⟨k, hk⟩ := hk
        have hk' : maxVoters - (acc ++ [n]).length = k := by
          simp only [List.length_append, List.length_singleton]
          omega
        rw [insertNodesNewVoters]
        simp only [hfull, if_false, hmem, if_false, ite_false]
        rw [hrec, hk', hk]
        simp [List.take_succ_cons]

theorem setVotersStatus_yes_fresh :
    ∀ (nodes voters : List ServerId), nodes.Nodup → (∀ n ∈ nodes, n ∉ voters) →
      setVotersStatus voters nodes true = voters ++ nodes := by
  intro nodes
  induction nodes with
  | nil => intro voters _ _; simp [setVotersStatus]
  | cons n rest ih =>
      intro voters hnd hfresh
      have hmem : n ∉ voters := hfresh n (List.mem_cons_self n rest)
      have hrest : ∀ m ∈ rest, m ∉ voters ++ [n] := by
        intro m hm
        simp only [List.mem_append, List.mem_singleton]
        rintro (hmv | rfl)
        · exact hfresh m (List.mem_cons_of_mem n hm) hmv
        · exact (List.nodup_cons.mp hnd).1 hm
      have hrec := ih (voters ++ [n]) (List.nodup_cons.mp hnd).2 hrest
      simp only [setVotersStatus, if_true, List.foldl_cons, hmem, ite_false] at hrec ⊢
      rw [hrec]
      simp

/-- Claim C1 (as stated, disproved): it is not the case that for every
configured maximum and every sequence of registry calls, the number of
distinct nodes ever forwarded to the voter client with `can_vote = yes`
stays within the maximum.  With maximum 1, calling `insert_node(0)` and
then `insert_node(1)` forwards two distinct nodes with `can_vote = yes`
(and the voter client ends up holding two voters), because
`insert_nodes` caps only the nodes selected within a single call and
never consults the voter count already held by the client. -/
theorem voter_cap_sequence_counterexample :
    ¬ ((forwardedYesNodes 1 [.insert [0], .insert [1]]).dedup.length ≤ 1 ∧
       (runRegistryCalls 1 [] [.insert [0], .insert [1]]).length ≤ 1) := by
  decide

/-- Claim C1 (amended): within any single `insert_nodes` call, at most
`_max_voters` nodes are forwarded to the voter client with
`can_vote = yes`; in particular a single `insert_nodes` call with 4
distinct nodes under maximum 3 makes the voter client hold exactly 3
voters.  (The cap is per call: sequences of calls may exceed it.) -/
theorem voter_cap_single_call (maxVoters : Nat) (nodes : List ServerId)
    (h : nodes.Nodup) :
    (insertNodesNewVoters maxVoters nodes []).length ≤ maxVoters ∧
    (nodes.length = 4 → (registryInsertNodes 3 [] nodes).length = 3) := by
  constructor
  · exact insertNodesNewVoters_length_le maxVoters nodes [] (Nat.zero_le _)
  · intro h4
    have hsel : insertNodesNewVoters 3 nodes [] = nodes.take 3 := by
      simpa using insertNodesNewVoters_fresh_eq 3 nodes []
        h (by intro n _; simp) (Nat.zero_le _)
    have hnd : (nodes.take 3).Nodup := h.sublist (List.take_sublist 3 nodes)
    have hclient : setVotersStatus [] (nodes.take 3) true = nodes.take 3 := by
      simpa using setVotersStatus_yes_fresh (nodes.take 3) [] hnd (by intro n _; simp)
    rw [registryInsertNodes, hsel, hclient]
    rw [List.length_take, h4]
    decide

theorem voter_cap_single_call_witness :
    ([0, 1, 2, 3] : List ServerId).Nodup ∧
    (insertNodesNewVoters 3 [0, 1, 2, 3] []).length ≤ 3 ∧
    (registryInsertNodes 3 [] [0, 1, 2, 3]).length = 3 := by
  refine ⟨by decide, ?_⟩
  have h := voter_cap_single_call 3 [0, 1, 2, 3] (by decide)
  exact ⟨h.1, h.2 (by decide)⟩

/-- Claim C2 (code bug): starting from an empty voter set with maximum 3,
`insert_nodes({0,1,2,3})` makes nodes 0, 1, 2 voters; then
`remove_node(0)` merely forwards node 0 with `can_vote = no`, leaving the
voter client with exactly the two voters 1 and 2.  No previously-excluded
node is promoted, so the voter count drops to 2 — contradicting the unit
test `test_voter_registry_keep_limit_on_removal`, which asserts the count
stays at the maximum of 3 after such a removal. -/
theorem voter_removal_keeps_limit_refuted :
    runRegistryCalls 3 [] [.insert [0, 1, 2, 3], .remove [0]] = [1, 2] ∧
    (runRegistryCalls 3 [] [.insert [0, 1, 2, 3], .remove [0]]).length = 2 := by
  decide

/-! ## Instance-profile credentials provider

Embedding of `aws::instance_profile_credentials_provider` (refresh
decision only; the three-step metadata fetch itself is network I/O and is
modelled as the boolean "the fetch is performed").  Times are integers
(`std::chrono::system_clock` instants); `creds` converts to `false` when
absent. -/

/-- State of the provider at the moment `reload()` runs: whether `creds`
holds credentials (its boolean conversion), the current clock value, and
the stored `creds.expires_at`. -/
structure IpCredsState where
  hasCreds : Bool
  now : Int
  expiresAt : Int
deriving DecidableEq, Repr

/-- `instance_profile_credentials_provider::is_time_to_refresh`: true
once the current time has reached the stored expiry
(`system_clock::now() >= creds.expires_at`). -/
def is_time_to_refresh (s : IpCredsState) : Bool :=
  s.expiresAt ≤ s.now

/-- The condition under which `reload()` performs the three-step
metadata fetch, exactly as in the source:
`if (!is_time_to_refresh() || !creds) co_return co_await update_credentials();`. -/
def reload_performs_fetch (s : IpCredsState) : Bool :=
  !is_time_to_refresh s || !s.hasCreds

/-- The refresh condition the specification states: fetch if and only if
the refresh is due or no credentials are held yet. -/
def reload_fetch_spec (s : IpCredsState) : Bool :=
  is_time_to_refresh s || !s.hasCreds

/-- On every state holding credentials, the code's fetch condition is
the boolean negation of the specified one. -/
theorem reload_condition_negates_spec (s : IpCredsState) (hs : s.hasCreds = true) :
    reload_performs_fetch s = !(reload_fetch_spec s) := by
  simp [reload_performs_fetch, reload_fetch_spec, hs]

/-- Claim C3 (code bug): the source's `reload()` guard is
`!is_time_to_refresh() || !creds`, the negation of the specified
`is_time_to_refresh() || !creds` on states holding credentials.  At the
state holding credentials with `now = 10` past the expiry `5` (refresh
due), the code skips the fetch although the spec requires it; at the
state holding credentials with `now = 3` before the expiry `5` (refresh
not due), the code re-fetches although the spec says it completes
without fetching.  So the code keeps expired credentials forever,
contradicting its own comment that the early expiry exists "to ensure
credentials are renewed slightly before they expire". -/
theorem reload_refresh_condition_inverted :
    reload_performs_fetch ⟨true, 10, 5⟩ = false ∧
    reload_fetch_spec ⟨true, 10, 5⟩ = true ∧
    reload_performs_fetch ⟨true, 3, 5⟩ = true ∧
    reload_fetch_spec ⟨true, 3, 5⟩ = false := by
  refine ⟨by decide, by decide, by decide, by decide⟩

/-! ## Alternator consumed-capacity accounting

Embedding of `alternator::consumed_capacity_counter` and its helpers
(`should_add_capacity`, `calculate_internal_units`,
`rcu_consumed_capacity_counter`, `wcu_consumed_capacity_counter`).
JSON values are modelled structurally; `rjson::find` is lookup of the
first member with the given key, `rjson::add` appends a member.  All
byte counts are `uint64_t`, so arithmetic is taken modulo `2^64`. -/

def UINT64_MOD : Nat := 2 ^ 64

/-- A structural model of `rjson::value` (rapidjson values), covering the
kinds the consumed-capacity code distinguishes. -/
inductive RJson where
  | null
  | boolean (b : Bool)
  | num (q : ℚ)
  | str (s : String)
  | obj (fields : List (String × RJson))

/-- `rjson::find(request, key)`: the first member with the given key, or
null if the value is not an object or has no such member. -/
def rjsonFind (v : RJson) (key : String) : Option RJson :=
  match v with
  | .obj fields => (fields.find? (fun f => f.1 == key)).map (·.2)
  | _ => none

/-- `rjson::add(obj, key, value)`: append a member (rapidjson appends
without checking for duplicates). -/
def rjsonAdd (v : RJson) (key : String) (val : RJson) : RJson :=
  match v with
  | .obj fields => .obj (fields ++ [(key, val)])
  | other => other

/-- `v.IsString()`. -/
def RJson.isStr : RJson → Bool
  | .str _ => true
  | _ => false

/-- `alternator::should_add_capacity`: absent field means no reporting;
a non-string field or the string "INDEXES" raise `api_error::validation`;
"TOTAL" enables reporting; any other string disables it. -/
def should_add_capacity (request : RJson) : Except String Bool :=
  match rjsonFind request "ReturnConsumedCapacity" with
  | none => .ok false
  | some rc =>
    match rc with
    | .str consumed =>
      if consumed = "INDEXES" then
        .error "INDEXES consumed capacity is not supported"
      else
        .ok (consumed = "TOTAL")
    | _ => .error "Non-string ReturnConsumedCapacity field in request"

/-- `alternator::calculate_internal_units` over `uint64_t`: divide the
byte total by the block size rounding up, then double when `is_quorum`;
both the rounding addition and the doubling wrap modulo `2^64`. -/
def calculate_internal_units (unit_block_size total_bytes : Nat) (is_quorum : Bool) : Nat :=
  let internal_units := ((total_bytes + unit_block_size - 1) % UINT64_MOD) / unit_block_size
  if is_quorum then (internal_units * 2) % UINT64_MOD else internal_units

def RCU_BLOCK_SIZE_LENGTH : Nat := 4 * 1024

def WCU_BLOCK_SIZE_LENGTH : Nat := 1 * 1024

/-- `rcu_consumed_capacity_counter::get_internal_units`. -/
def rcu_get_internal_units (total_bytes : Nat) (is_quorum : Bool) : Nat :=
  calculate_internal_units RCU_BLOCK_SIZE_LENGTH total_bytes is_quorum

/-- `wcu_consumed_capacity_counter::get_internal_units`: the doubling is
always applied. -/
def wcu_get_internal_units (total_bytes : Nat) : Nat :=
  calculate_internal_units WCU_BLOCK_SIZE_LENGTH total_bytes true

/-- `consumed_capacity_counter::get_consumed_capacity_units`:
`get_internal_units() * INTERNAL_UNIT_MULTIPLIER` with multiplier 0.5
(the multiplication by 0.5 is exact on IEEE doubles whenever the unit
count is exactly representable, so rationals model it faithfully). -/
def get_consumed_capacity_units (internal_units : Nat) : ℚ :=
  internal_units * (1 / 2)

/-- `rcu` capacity units reported for a byte total at a consistency. -/
def rcu_capacity_units (total_bytes : Nat) (is_quorum : Bool) : ℚ :=
  get_consumed_capacity_units (rcu_get_internal_units total_bytes is_quorum)

/-- Mathematical reading of the claim: `ceil(B / block)` as exact
natural-number arithmetic, without the `uint64_t` wraparound. -/
def ceil_units (block total_bytes : Nat) : Nat :=
  (total_bytes + block - 1) / block

/-- Claim C4 (as stated, disproved): the internal read units do not equal
`ceil(B / 4096)` for every accumulated `uint64_t` byte total `B`.  At
`B = 2^64 - 1` the rounding addition `B + 4096 - 1` wraps modulo `2^64`
to `4094`, so the code computes 0 internal units where the ceiling is
`2^52`. -/
theorem capacity_rounding_counterexample :
    ¬ (rcu_get_internal_units (UINT64_MOD - 1) false =
        ceil_units RCU_BLOCK_SIZE_LENGTH (UINT64_MOD - 1)) := by
  decide

theorem UINT64_MOD_eq : UINT64_MOD = 18446744073709551616 := by
  norm_num [UINT64_MOD]

/-- Claim C4 (amended): for every accumulated byte total `B` small enough
that the rounding addition `B + block_size - 1` does not wrap modulo
`2^64`, the internal units equal `ceil(B / 4096)` for reads and
`ceil(B / 1024)` for writes; the read count is doubled exactly under
quorum consistency while the write count is always doubled; the reported
`CapacityUnits` value is `internal_units * 0.5`; and a 4096-byte
non-quorum read reports 0.5 while a 4097-byte one reports 1.0. -/
theorem capacity_units_correct (B : Nat) (q : Bool)
    (h : B + RCU_BLOCK_SIZE_LENGTH - 1 < UINT64_MOD) :
    rcu_get_internal_units B q =
      (if q then 2 else 1) * ceil_units RCU_BLOCK_SIZE_LENGTH B ∧
    wcu_get_internal_units B = 2 * ceil_units WCU_BLOCK_SIZE_LENGTH B ∧
    rcu_capacity_units B q = (rcu_get_internal_units B q : ℚ) * (1 / 2) ∧
    rcu_capacity_units 4096 false = 1 / 2 ∧
    rcu_capacity_units 4097 false = 1 := by
  rw [RCU_BLOCK_SIZE_LENGTH, UINT64_MOD_eq] at h
  norm_num at h
  have hrmod : (B + 4 * 1024 - 1) % UINT64_MOD = B + 4 * 1024 - 1 := by
    apply Nat.mod_eq_of_lt
    rw [UINT64_MOD_eq]
    omega
  have hwmod : (B + 1 * 1024 - 1) % UINT64_MOD = B + 1 * 1024 - 1 := by
    apply Nat.mod_eq_of_lt
    rw [UINT64_MOD_eq]
    omega
  have hrdiv : (B + 4 * 1024 - 1) / (4 * 1024) < 4503599627370496 := by
    rw [Nat.div_lt_iff_lt_mul (by norm_num)]
    omega
  have hwdiv : (B + 1 * 1024 - 1) / (1 * 1024) < 18014398509481984 := by
    rw [Nat.div_lt_iff_lt_mul (by norm_num)]
    omega
  have hrdbl : ((B + 4 * 1024 - 1) / (4 * 1024) * 2) % UINT64_MOD =
      (B + 4 * 1024 - 1) / (4 * 1024) * 2 := by
    apply Nat.mod_eq_of_lt
    rw [UINT64_MOD_eq]
    omega
  have hwdbl : ((B + 1 * 1024 - 1) / (1 * 1024) * 2) % UINT64_MOD =
      (B + 1 * 1024 - 1) / (1 * 1024) * 2 := by
    apply Nat.mod_eq_of_lt
    rw [UINT64_MOD_eq]
    omega
  refine ⟨?_, ?_, rfl, ?_, ?_⟩
  · cases q with
    | false =>
        simp only [rcu_get_internal_units, calculate_internal_units,
          RCU_BLOCK_SIZE_LENGTH, ceil_units, if_false, Bool.false_eq_true]
        rw [hrmod]
        omega
    | true =>
        simp only [rcu_get_internal_units, calculate_internal_units,
          RCU_BLOCK_SIZE_LENGTH, ceil_units, if_true]
        rw [hrmod, hrdbl]
        omega
  · simp only [wcu_get_internal_units, calculate_internal_units,
      WCU_BLOCK_SIZE_LENGTH, ceil_units, if_true]
    rw [hwmod, hwdbl]
    omega
  · norm_num [rcu_capacity_units, get_consumed_capacity_units,
      rcu_get_internal_units, calculate_internal_units,
      RCU_BLOCK_SIZE_LENGTH, UINT64_MOD]
  · norm_num [rcu_capacity_units, get_consumed_capacity_units,
      rcu_get_internal_units, calculate_internal_units,
      RCU_BLOCK_SIZE_LENGTH, UINT64_MOD]

theorem capacity_units_correct_witness :
    4096 + RCU_BLOCK_SIZE_LENGTH - 1 < UINT64_MOD ∧
    rcu_get_internal_units 4096 true =
      (if true then 2 else 1) * ceil_units RCU_BLOCK_SIZE_LENGTH 4096 ∧
    rcu_capacity_units 4097 false = 1 :=
  ⟨by decide, (capacity_units_correct 4096 true (by decide)).1,
    (capacity_units_correct 4096 true (by decide)).2.2.2.2⟩

/-! ### Attaching consumed capacity to the response -/

/-- The data of `rcu_consumed_capacity_counter`: the
`_should_add_to_reponse` flag computed by `should_add_capacity` at
construction, the accumulated `_total_bytes`, and the `_is_quorum`
flag. -/
structure RcuCounter where
  shouldAdd : Bool
  totalBytes : Nat
  isQuorum : Bool

/-- `rcu_consumed_capacity_counter::rcu_consumed_capacity_counter`:
evaluates `should_add_capacity(request)` (which may throw) and starts
with zero accumulated bytes. -/
def rcu_counter_ctor (request : RJson) (is_quorum : Bool) : Except String RcuCounter :=
  (should_add_capacity request).map (fun b => ⟨b, 0, is_quorum⟩)

/-- `wcu_consumed_capacity_counter::wcu_consumed_capacity_counter`. -/
def wcu_counter_ctor (request : RJson) : Except String Bool :=
  should_add_capacity request

/-- `consumed_capacity_counter::operator+=` (uint64 accumulation). -/
def rcu_counter_add_bytes (c : RcuCounter) (units : Nat) : RcuCounter :=
  { c with totalBytes := (c.totalBytes + units) % UINT64_MOD }

/-- The `CapacityUnits` number this counter reports. -/
def rcu_counter_units (c : RcuCounter) : ℚ :=
  get_consumed_capacity_units (rcu_get_internal_units c.totalBytes c.isQuorum)

/-- `consumed_capacity_counter::add_consumed_capacity_to_response_if_needed`:
when `_should_add_to_reponse` is set, add a `ConsumedCapacity` object
holding a `CapacityUnits` number to the response. -/
def add_consumed_capacity_to_response_if_needed (c : RcuCounter) (response : RJson) :
    RJson :=
  if c.shouldAdd then
    rjsonAdd response "ConsumedCapacity" (.obj [("CapacityUnits", .num (rcu_counter_units c))])
  else
    response

/-- A read request processed end to end: construct the counter from the
request (validating `ReturnConsumedCapacity`), accumulate the bytes
read, and attach the consumed capacity to the response if needed. -/
def processReadResponse (request : RJson) (is_quorum : Bool) (bytes : Nat)
    (response : RJson) : Except String RJson :=
  (rcu_counter_ctor request is_quorum).map
    (fun c => add_consumed_capacity_to_response_if_needed (rcu_counter_add_bytes c bytes) response)

/-- Modelled from the spec's words, for comparison with
`processReadResponse`: absent field or a string other than "TOTAL" and
"INDEXES" leaves the response untouched, "INDEXES" is a validation
error, a non-string field is a validation error, and "TOTAL" adds the
`ConsumedCapacity` object. -/
def capacityReportingOutcome (request : RJson) (is_quorum : Bool) (bytes : Nat)
    (response : RJson) : Except String RJson :=
  match rjsonFind request "ReturnConsumedCapacity" with
  | none => .ok response
  | some (.str s) =>
    if s = "INDEXES" then
      .error "INDEXES consumed capacity is not supported"
    else if s = "TOTAL" then
      .ok (rjsonAdd response "ConsumedCapacity"
        (.obj [("CapacityUnits",
          .num (rcu_counter_units ⟨true, (0 + bytes) % UINT64_MOD, is_quorum⟩))]))
    else
      .ok response
  | some _ => .error "Non-string ReturnConsumedCapacity field in request"

/-- Claim C5 (as stated, disproved): a request whose
`ReturnConsumedCapacity` field holds a value other than the string
"TOTAL" does not always yield a response without `ConsumedCapacity` —
when the field holds the number 5 (a non-string), the code raises a
validation error instead of producing any response. -/
theorem capacity_gating_counterexample :
    ¬ (∀ (request response : RJson) (q : Bool) (bytes : Nat),
        rjsonFind request "ReturnConsumedCapacity" ≠ some (.str "TOTAL") →
        rjsonFind request "ReturnConsumedCapacity" ≠ some (.str "INDEXES") →
        ∃ out, processReadResponse request q bytes response = .ok out) := by
  intro hclaim
  have hfind : rjsonFind (.obj [("ReturnConsumedCapacity", .num 5)])
      "ReturnConsumedCapacity" = some (.num 5) := rfl
  obtain ⟨out, hout⟩ := hclaim (.obj [("ReturnConsumedCapacity", .num 5)]) (.obj []) false 0
    (by rw [hfind]; exact fun hcontra => RJson.noConfusion (Option.some.inj hcontra))
    (by rw [hfind]; exact fun hcontra => RJson.noConfusion (Option.some.inj hcontra))
  have heval : processReadResponse (.obj [("ReturnConsumedCapacity", .num 5)]) false 0
      (.obj []) = .error "Non-string ReturnConsumedCapacity field in request" := rfl
  rw [heval] at hout
  exact Except.noConfusion hout

/-- Claim C5 (amended): the processed response agrees everywhere with the
spec-side outcome: absent `ReturnConsumedCapacity` or a string other
than "TOTAL"/"INDEXES" leaves the response without a `ConsumedCapacity`
field, "INDEXES" raises a validation error, a non-string value raises a
validation error, and "TOTAL" adds a `ConsumedCapacity` object carrying
a `CapacityUnits` number. -/
theorem capacity_gating_matches_spec (request response : RJson) (q : Bool) (bytes : Nat) :
    processReadResponse request q bytes response =
      capacityReportingOutcome request q bytes response := by
  unfold processReadResponse capacityReportingOutcome rcu_counter_ctor should_add_capacity
  cases hfind : rjsonFind request "ReturnConsumedCapacity" with
  | none => rfl
  | some rc =>
      cases rc with
      | null => rfl
      | boolean b => rfl
      | num n => rfl
      | obj fields => rfl
      | str s =>
          by_cases hI : s = "INDEXES"
          · simp [hI, Except.map]
          · by_cases hT : s = "TOTAL"
            · simp [hI, hT, Except.map, add_consumed_capacity_to_response_if_needed,
                rcu_counter_add_bytes, rcu_counter_units]
            · simp [hI, hT, Except.map, add_consumed_capacity_to_response_if_needed,
                rcu_counter_add_bytes]

/-- Claim C9: when the `ReturnConsumedCapacity` field is present but is
not a JSON string, `should_add_capacity` — and hence the construction of
either consumed-capacity counter — raises the validation error
"Non-string ReturnConsumedCapacity field in request" rather than
treating the value as "do not report". -/
theorem nonstring_return_consumed_capacity_rejected (request v : RJson) (q : Bool)
    (hfind : rjsonFind request "ReturnConsumedCapacity" = some v)
    (hns : v.isStr = false) :
    should_add_capacity request = .error "Non-string ReturnConsumedCapacity field in request" ∧
    rcu_counter_ctor request q = .error "Non-string ReturnConsumedCapacity field in request" ∧
    wcu_counter_ctor request = .error "Non-string ReturnConsumedCapacity field in request" := by
  have hsac : should_add_capacity request =
      .error "Non-string ReturnConsumedCapacity field in request" := by
    unfold should_add_capacity
    rw [hfind]
    cases v with
    | str s => simp [RJson.isStr] at hns
    | null => rfl
    | boolean b => rfl
    | num n => rfl
    | obj fields => rfl
  refine ⟨hsac, ?_, ?_⟩
  · unfold rcu_counter_ctor
    rw [hsac]
    rfl
  · unfold wcu_counter_ctor
    exact hsac

theorem nonstring_return_consumed_capacity_rejected_witness :
    should_add_capacity (.obj [("ReturnConsumedCapacity", .num 5)]) =
      .error "Non-string ReturnConsumedCapacity field in request" :=
  (nonstring_return_consumed_capacity_rejected
    (.obj [("ReturnConsumedCapacity", .num 5)]) (.num 5) false rfl rfl).1

/-! ## Retryable HTTP client

Embedding of `aws::retryable_http_client::do_retryable_request`.  Each
attempt either succeeds (`co_return` out of the loop) or raises an error
that is recorded into `request_ex`/`e`; the injected retry strategy's
`should_retry(error, retries)` decides whether to sleep and go around
again.  When the loop ends with a stored exception, the exception is
handed to the injected `_error_handler` instead of being re-raised.  The
loop may genuinely diverge (a strategy that always retries), so the
model carries explicit fuel; `none` means the fuel ran out before the
loop terminated. -/

/-- An AWS-style structured error (`aws_error`): whether the error kind
is retryable, plus an error code distinguishing errors. -/
structure AwsError where
  retryable : Bool
  code : Nat
deriving DecidableEq, Repr

/-- Outcome of one attempt at the underlying `http.make_request`:
success, or an exception captured by the catch clauses. -/
inductive AttemptResult where
  | success
  | failure (e : AwsError)
deriving DecidableEq, Repr

/-- Observable outcome of `do_retryable_request`: how many attempts were
made, the stored exception handed to `_error_handler` (if any), and
whether the preemptive abort check raised before any attempt. -/
structure RetryOutcome where
  attempts : Nat
  handledError : Option AwsError
  abortedEarly : Bool
deriving DecidableEq, Repr

/-- The `while (true)` retry loop of `do_retryable_request`, with
`retries` the current attempt counter and explicit fuel. -/
def retryLoop (attempt : Nat → AttemptResult) (shouldRetry : AwsError → Nat → Bool) :
    Nat → Nat → Option RetryOutcome
  | 0, _ => none
  | fuel + 1, retries =>
    match attempt retries with
    | .success => some ⟨retries + 1, none, false⟩
    | .failure err =>
      if shouldRetry err retries then
        retryLoop attempt shouldRetry fuel (retries + 1)
      else
        some ⟨retries + 1, some err, false⟩

/-- `retryable_http_client::do_retryable_request`: a preemptive abort
check, then the retry loop starting at `retries = 0`; on loop exit with
a stored exception the error handler receives it and the function
returns normally. -/
def do_retryable_request (abortRequested : Bool) (attempt : Nat → AttemptResult)
    (shouldRetry : AwsError → Nat → Bool) (fuel : Nat) : Option RetryOutcome :=
  match abortRequested with
  | true => some ⟨0, none, true⟩
  | false => retryLoop attempt shouldRetry fuel 0

theorem retryLoop_exhausts (N : Nat) (err : AwsError)
    (attempt : Nat → AttemptResult) (shouldRetry : AwsError → Nat → Bool)
    (hfail : ∀ k, attempt k = .failure err)
    (hstrat : ∀ k, shouldRetry err k = decide (k < N)) :
    ∀ (fuel r : Nat), r ≤ N → N + 1 - r ≤ fuel →
      retryLoop attempt shouldRetry fuel r = some ⟨N + 1, some err, false⟩ := by
  intro fuel
  induction fuel with
  | zero => intro r hr hf; omega
  | succ fuel ih =>
      intro r hr hf
      simp only [retryLoop, hfail r, hstrat r]
      by_cases hlt : r < N
      · simp only [decide_eq_true_eq, hlt, if_true]
        exact ih (r + 1) (by omega) (by omega)
      · have hrN : r = N := by omega
        subst hrN
        simp

/-- Claim C6: a request failing on every attempt, under a strategy that
retries exactly for attempt counts `0 .. N-1`, makes exactly `N + 1`
attempts, after which the stored exception is handed to the injected
error handler and `do_retryable_request` completes without re-raising
(given enough fuel to reach termination; the result is independent of
any fuel of at least `N + 1`). -/
theorem retry_exhaustion_invokes_error_handler (N fuel : Nat) (err : AwsError)
    (attempt : Nat → AttemptResult) (shouldRetry : AwsError → Nat → Bool)
    (hfail : ∀ k, attempt k = .failure err)
    (hstrat : ∀ k, shouldRetry err k = decide (k < N))
    (hfuel : N + 1 ≤ fuel) :
    do_retryable_request false attempt shouldRetry fuel =
      some ⟨N + 1, some err, false⟩ := by
  simp only [do_retryable_request]
  exact retryLoop_exhausts N err attempt shouldRetry hfail hstrat fuel 0
    (Nat.zero_le N) (by omega)

theorem retry_exhaustion_invokes_error_handler_witness :
    2 + 1 ≤ 3 ∧
    do_retryable_request false (fun _ => .failure ⟨true, 7⟩)
      (fun _ k => decide (k < 2)) 3 = some ⟨3, some ⟨true, 7⟩, false⟩ :=
  ⟨by decide,
    retry_exhaustion_invokes_error_handler 2 3 ⟨true, 7⟩ _ _
      (fun _ => rfl) (fun _ => rfl) (by decide)⟩

/-! ## CQL result-set builder

Embedding of `cql3::selection::result_set_builder` (group-by and
aggregate flushing logic).  Cell values are modelled as `Option Nat`
(a `managed_bytes_opt`), a row as a list of cells.  The selectors object
is abstracted as a state machine `SelectorsModel` over a state type `σ`,
supplying exactly the operations the builder invokes:
`is_aggregate()`, `add_input_row`, `get_output_row`, `reset`, and
`transform_input_row`.  Timestamp/TTL side arrays are not modelled (no
claim depends on them). -/

abbrev Cell := Option Nat

abbrev Row := List Cell

/-- The selector operations `result_set_builder` calls on its
`_selectors` member.  `transformInputRow` returns the produced output
row together with the selectors state afterwards. -/
structure SelectorsModel (σ : Type) where
  isAggregate : Bool
  newSelectors : σ
  addInputRow : σ → Row → σ
  getOutputRow : σ → Row
  reset : σ → σ
  transformInputRow : σ → Row → Row × σ

/-- The state of a `result_set_builder`: accumulated output rows, the
selectors state, the group-by cell indices fixed at construction, the
`_last_group` values, the `_group_began` flag, and the optional
`current` row. -/
structure ResultSetBuilder (σ : Type) where
  resultRows : List Row
  selState : σ
  groupByCellIndices : List Nat
  lastGroup : List Cell
  groupBegan : Bool
  currentRow : Option Row

/-- The `result_set_builder` constructor: empty result set, fresh
selectors, `_last_group` sized to the group-by indices, `_group_began`
false, and `current` disengaged. -/
def result_set_builder_init {σ : Type} (S : SelectorsModel σ) (groupBy : List Nat) :
    ResultSetBuilder σ :=
  { resultRows := []
    selState := S.newSelectors
    groupByCellIndices := groupBy
    lastGroup := List.replicate groupBy.length none
    groupBegan := false
    currentRow := none }

/-- `result_set_builder::add(bytes_opt)`: append a cell to the current
row (undefined in C++ when `current` is disengaged; modelled as a no-op
on the disengaged state, which no caller reaches). -/
def result_set_builder_add {σ : Type} (b : ResultSetBuilder σ) (v : Cell) :
    ResultSetBuilder σ :=
  { b with currentRow := b.currentRow.map (fun row => row ++ [v]) }

/-- `result_set_builder::update_last_group`. -/
def update_last_group {σ : Type} (b : ResultSetBuilder σ) : ResultSetBuilder σ :=
  { b with
    groupBegan := true
    lastGroup := b.groupByCellIndices.map (fun i => (b.currentRow.getD []).getD i none) }

/-- `result_set_builder::last_group_ended`.  The C++ compares the stored
group against the current row's group-by cells over reversed ranges,
which is equality of the lists. -/
def last_group_ended {σ : Type} (S : SelectorsModel σ) (b : ResultSetBuilder σ) : Bool :=
  if !b.groupBegan then
    false
  else if b.lastGroup.isEmpty then
    !S.isAggregate
  else
    !decide (b.lastGroup =
      b.groupByCellIndices.map (fun i => (b.currentRow.getD []).getD i none))

/-- `result_set_builder::flush_selectors`. -/
def flush_selectors {σ : Type} (S : SelectorsModel σ) (b : ResultSetBuilder σ) :
    ResultSetBuilder σ :=
  if !S.isAggregate then
    b
  else
    { b with
      resultRows := b.resultRows ++ [S.getOutputRow b.selState]
      selState := S.reset b.selState }

/-- `result_set_builder::process_current_row`. -/
def process_current_row {σ : Type} (S : SelectorsModel σ) (moreRowsComing : Bool)
    (b : ResultSetBuilder σ) : ResultSetBuilder σ :=
  match b.currentRow with
  | none => b
  | some row =>
    if !S.isAggregate then
      let t := S.transformInputRow b.selState row
      { b with resultRows := b.resultRows ++ [t.1], selState := t.2 }
    else
      let b1 := if last_group_ended S b then flush_selectors S b else b
      let b2 := update_last_group b1
      let b3 := { b2 with selState := S.addInputRow b2.selState row }
      if moreRowsComing then
        { b3 with currentRow := some [] }
      else
        flush_selectors S b3

/-- `result_set_builder::new_row`: process the previous row, then engage
a fresh empty `current` row. -/
def result_set_builder_new_row {σ : Type} (S : SelectorsModel σ) (b : ResultSetBuilder σ) :
    ResultSetBuilder σ :=
  { process_current_row S true b with currentRow := some [] }

/-- `result_set_builder::build`: process the final row; if the result
set is still empty, the selection aggregates, and there is no GROUP BY
clause, emit one row of aggregate identity output. -/
def result_set_builder_build {σ : Type} (S : SelectorsModel σ) (b : ResultSetBuilder σ) :
    List Row :=
  let b1 := process_current_row S false b
  if b1.resultRows.isEmpty && S.isAggregate && b1.groupByCellIndices.isEmpty then
    b1.resultRows ++ [S.getOutputRow b1.selState]
  else
    b1.resultRows

/-- Claim C7: over an aggregating selection with no GROUP BY clause, if
`new_row()` is never called before `build()`, then `build()` emits
exactly one row — the aggregate identity output over the fresh selectors
state — and not zero rows. -/
theorem aggregate_empty_input_yields_one_row {σ : Type} (S : SelectorsModel σ)
    (groupBy : List Nat) (hagg : S.isAggregate = true) (hgb : groupBy = []) :
    result_set_builder_build S (result_set_builder_init S groupBy) =
      [S.getOutputRow S.newSelectors] ∧
    (result_set_builder_build S (result_set_builder_init S groupBy)).length = 1 := by
  subst hgb
  constructor
  · simp [result_set_builder_build, process_current_row, result_set_builder_init, hagg]
  · simp [result_set_builder_build, process_current_row, result_set_builder_init, hagg]

/-- A concrete `COUNT(*)` selectors model: the state is the row count,
the identity output is a single column holding 0. -/
def countStarSelectors : SelectorsModel Nat :=
  { isAggregate := true
    newSelectors := 0
    addInputRow := fun s _ => s + 1
    getOutputRow := fun s => [some s]
    reset := fun _ => 0
    transformInputRow := fun s row => (row, s) }

theorem aggregate_empty_input_yields_one_row_witness :
    countStarSelectors.isAggregate = true ∧
    result_set_builder_build countStarSelectors
      (result_set_builder_init countStarSelectors []) = [[some 0]] :=
  ⟨rfl, (aggregate_empty_input_yields_one_row countStarSelectors [] rfl rfl).1⟩

/-! ## Delegating mutation reader

Embedding of `delegating_reader_v2` ownership: the lvalue constructor
leaves `_underlying_holder` disengaged (the caller keeps ownership); the
rvalue constructor moves the reader into `_underlying_holder`.
`close()` closes `*_underlying_holder` when engaged and otherwise does
nothing.  A reader's lifetime is modelled by how many times `close()`
has been invoked on it. -/

/-- The lifetime-relevant state of a `flat_mutation_reader_v2`: how many
times it has been closed. -/
structure FlatMutationReaderState where
  closeCount : Nat
deriving DecidableEq, Repr

/-- The data of a `delegating_reader_v2` relevant to `close()`: the
optional owned reader in `_underlying_holder` (`_underlying` points at
the held reader when engaged, at the caller's reader otherwise). -/
structure DelegatingReaderV2 where
  underlyingHolder : Option FlatMutationReaderState
deriving DecidableEq, Repr

/-- The lvalue-reference constructor: the wrapper does not own the
reader, `_underlying_holder` stays disengaged. -/
def delegating_reader_from_lvalue (_r : FlatMutationReaderState) : DelegatingReaderV2 :=
  ⟨none⟩

/-- The rvalue-reference constructor: the wrapper takes ownership by
moving the reader into `_underlying_holder`. -/
def delegating_reader_from_rvalue (r : FlatMutationReaderState) : DelegatingReaderV2 :=
  ⟨some r⟩

/-- Closing a reader increments its close count. -/
def reader_close (r : FlatMutationReaderState) : FlatMutationReaderState :=
  ⟨r.closeCount + 1⟩

/-- `delegating_reader_v2::close`: close the held reader when the holder
is engaged, otherwise leave the underlying reader untouched.  Returns
the final state of the underlying reader. -/
def delegating_reader_close (d : DelegatingReaderV2)
    (callerReader : FlatMutationReaderState) : FlatMutationReaderState :=
  match d.underlyingHolder with
  | some held => reader_close held
  | none => callerReader

/-- Claim C8: closing a by-value-constructed delegating reader closes
the underlying reader exactly once (its close count rises by exactly 1),
while closing a by-reference-constructed one performs no operation on
the underlying reader. -/
theorem delegating_reader_close_ownership (r : FlatMutationReaderState) :
    (delegating_reader_close (delegating_reader_from_rvalue r) r).closeCount =
      r.closeCount + 1 ∧
    delegating_reader_close (delegating_reader_from_lvalue r) r = r := by
  exact ⟨rfl, rfl⟩

/-! ## Selection column lookups

Embedding of `cql3::selection::index_of` and `selection::has_column`:
linear scans of the `_columns` vector comparing `column_definition`
pointers, i.e. column identities (modelled as naturals). -/

abbrev ColumnDef := Nat

/-- The scan underlying `selection::index_of`: `std::find` over the
remaining columns, carrying the distance accumulated so far. -/
def index_of_from (d : ColumnDef) : List ColumnDef → Int → Int
  | [], _ => -1
  | c :: rest, i => if c = d then i else index_of_from d rest (i + 1)

/-- `selection::index_of`: the distance from the beginning to the first
occurrence of the column, or -1 when absent. -/
def index_of (columns : List ColumnDef) (d : ColumnDef) : Int :=
  index_of_from d columns 0

/-- `selection::has_column`: `std::find(...) != _columns.end()`. -/
def has_column (columns : List ColumnDef) (d : ColumnDef) : Bool :=
  columns.contains d

theorem index_of_from_spec (d : ColumnDef) :
    ∀ (columns : List ColumnDef) (i : Int),
      index_of_from d columns i =
        if d ∈ columns then i + List.indexOf d columns else -1 := by
  intro columns
  induction columns with
  | nil => intro i; simp [index_of_from]
  | cons c rest ih =>
      intro i
      by_cases hc : c = d
      · subst hc
        simp [index_of_from, List.indexOf_cons_self]
      · have hne : d ≠ c := fun h => hc h.symm
        rw [index_of_from]
        simp only [hc, if_false]
        rw [ih (i + 1)]
        by_cases hmem : d ∈ rest
        · have hmem' : d ∈ c :: rest := List.mem_cons_of_mem c hmem
          simp only [hmem, hmem', if_true]
          rw [List.indexOf_cons_ne rest hc]
          push_cast
          ring
        · have hmem' : d ∉ c :: rest := by
            intro hmc
            rcases List.mem_cons.mp hmc with h | h
            · exact hne h
            · exact hmem h
          simp [hmem, hmem']

/-- Claim C10: `has_column(def)` holds exactly when `index_of(def)` is
non-negative; `index_of(def)` is the position of the first occurrence of
the column in the selection's column list when present, and -1 when the
column is not among the selected columns. -/
theorem has_column_iff_index_of_nonneg (columns : List ColumnDef) (d : ColumnDef) :
    (has_column columns d = true ↔ 0 ≤ index_of columns d) ∧
    (d ∈ columns → index_of columns d = (List.indexOf d columns : Int)) ∧
    (d ∉ columns → index_of columns d = -1) := by
  have hmemiff : has_column columns d = true ↔ d ∈ columns := by
    simp [has_column]
  have hspec : index_of columns d =
      if d ∈ columns then (List.indexOf d columns : Int) else -1 := by
    rw [index_of, index_of_from_spec d columns 0]
    by_cases hmem : d ∈ columns
    · simp [hmem]
    · simp [hmem]
  refine ⟨?_, ?_, ?_⟩
  · constructor
    · intro hc
      rw [hspec, if_pos (hmemiff.mp hc)]
      exact Int.ofNat_nonneg _
    · intro hle
      by_contra hnc
      have hmem : d ∉ columns := fun hm => hnc (hmemiff.mpr hm)
      rw [hspec, if_neg hmem] at hle
      omega
  · intro hmem
    rw [hspec, if_pos hmem]
  · intro hmem
    rw [hspec, if_neg hmem]

theorem has_column_iff_index_of_nonneg_witness :
    (5 : ColumnDef) ∈ [3, 5, 3] ∧
    has_column [3, 5, 3] 5 = true ∧
    index_of [3, 5, 3] 5 = 1 := by
  refine ⟨by decide, ?_, ?_⟩
  · have h := (has_column_iff_index_of_nonneg [3, 5, 3] 5).2.1 (by decide)
    have : (0 : Int) ≤ index_of [3, 5, 3] 5 := by rw [h]; decide
    exact ((has_column_iff_index_of_nonneg [3, 5, 3] 5).1).mpr this
  · have h := (has_column_iff_index_of_nonneg [3, 5, 3] 5).2.1 (by decide)
    rw [h]
    decide
